import Mathlib

/-!
Shallow embedding of the Alice & Bob Q# resource estimator core
(`src/qubit.rs`, `src/code.rs`, `src/factories.rs`, `src/counter.rs`,
`src/estimates.rs`).

Conventions of the embedding:
* `u64` / `usize` values are modelled as `ℕ`; every subtraction that the
  source performs on unsigned integers is only used, in the theorems below,
  on inputs where it cannot underflow.
* `f64` values are modelled exactly: rational arithmetic (`ℚ`) where the
  source only adds, multiplies, divides and rounds, and real arithmetic
  (`ℝ`) where the source uses `powf` / `exp` (modelled by `Real.rpow` and
  `Real.exp`).
* Fallible numeric conversions (`i32::from_u64`, `f64::to_u64`, ...) are
  modelled as `Option`-valued functions; a Rust `panic!` / failed `expect`
  or `assert!` is modelled as the `none` (resp. `Except.error`) outcome of
  the enclosing operation.
-/

/-- Models `num_traits` conversion `i32::from_u64`: succeeds exactly when the
value fits in a 32-bit signed integer.  The result is necessarily
nonnegative, so we keep it in `ℕ`; the `i32` division `(e + 1) / 2` performed
by the source on this value truncates toward zero, which on nonnegative
operands agrees with `ℕ` division. -/
def i32_from_u64 (n : ℕ) : Option ℕ :=
  if n ≤ 2147483647 then some n else none

/-- Models `num_traits` conversion `f64::from_u64`, which always succeeds
(`Some(n as f64)`). -/
def f64_from_u64 (n : ℕ) : Option ℝ :=
  some n

/-- Models `num_traits` conversion `f64::to_u64`: truncate toward zero,
succeeding exactly when the truncated value is representable in `u64`
(so for inputs strictly between `-1` and `2^64`). -/
def f64_to_u64 (x : ℚ) : Option ℕ :=
  if -1 < x ∧ x < 2 ^ 64 then some ⌊x⌋.toNat else none

/-- Cat qubit (`src/qubit.rs`): stores the loss ratio κ₁/κ₂. -/
structure CatQubit where
  k1_k2 : ℝ

/-- Models `CatQubit::new` / `CatQubit::default`: κ₁/κ₂ = 1e-5. -/
def CatQubit.new : CatQubit :=
  { k1_k2 := 1e-5 }

/-- Repetition code (`src/code.rs`): stores the threshold (κ₁/κ₂)_th. -/
structure RepetitionCode where
  p_threshold : ℝ

/-- Models `RepetitionCode::new` / `Default`: threshold 0.013. -/
def RepetitionCode.new : RepetitionCode :=
  { p_threshold := 0.013 }

/-- Code parameter (`src/code.rs`): code distance (`u64`) and mean photon
number |α|² (`f64`, modelled as `ℚ`; formulas that take real powers of it
coerce it into `ℝ`). -/
structure CodeParameter where
  distance : ℕ
  alpha_sq : ℚ
deriving DecidableEq

/-- Models `CodeParameter::new`. -/
def CodeParameter.new (distance : ℕ) (alpha_sq : ℚ) : CodeParameter :=
  { distance := distance, alpha_sq := alpha_sq }

/-- Models `RepetitionCode::logical_phaseflip_probability`:
`5.6e-2 * ((alpha_sq^0.86 * k1_k2) / p_threshold).powi((i32::from_u64(distance)? + 1) / 2)`. -/
noncomputable def RepetitionCode.logical_phaseflip_probability (c : RepetitionCode) (q : CatQubit)
    (p : CodeParameter) : Option ℝ :=
  (i32_from_u64 p.distance).map fun e =>
    5.6e-2 * (((p.alpha_sq : ℝ) ^ (0.86 : ℝ) * q.k1_k2) / c.p_threshold) ^ ((e + 1) / 2)

/-- Models `RepetitionCode::logical_bitflip_probability`:
`f64::from_u64(2 * (distance - 1))? * (0.5 * exp(-2 * alpha_sq))`. -/
noncomputable def logical_bitflip_probability (p : CodeParameter) : Option ℝ :=
  let ncx := 2 * (p.distance - 1)
  let pcx : ℝ := 0.5 * Real.exp (-2 * (p.alpha_sq : ℝ))
  (f64_from_u64 ncx).map fun n => n * pcx

/-- Models `ErrorCorrection::physical_qubits` for `RepetitionCode`:
`Ok(2 * distance - 1)`. -/
def RepetitionCode.physical_qubits (_c : RepetitionCode) (p : CodeParameter) :
    Except String ℕ :=
  .ok (2 * p.distance - 1)

/-- Models `ErrorCorrection::logical_qubits` for `RepetitionCode`: always 1. -/
def RepetitionCode.logical_qubits (_c : RepetitionCode) (_p : CodeParameter) :
    Except String ℕ :=
  .ok 1

/-- Models `ErrorCorrection::logical_cycle_time` for `RepetitionCode`:
`Ok(500 * distance)` nanoseconds. -/
def RepetitionCode.logical_cycle_time (_c : RepetitionCode) (_q : CatQubit)
    (p : CodeParameter) : Except String ℕ :=
  .ok (500 * p.distance)

/-- Models `ErrorCorrection::logical_error_rate` for `RepetitionCode`: if the
distance converts to `f64` and both flip probabilities are computable, return
`distance * (phaseflip + bitflip)`, otherwise the explicit error string. -/
noncomputable def RepetitionCode.logical_error_rate (c : RepetitionCode) (q : CatQubit)
    (p : CodeParameter) : Except String ℝ :=
  match f64_from_u64 p.distance, c.logical_phaseflip_probability q p,
      logical_bitflip_probability p with
  | some d, some lzp, some lxp => .ok (d * (lzp + lxp))
  | _, _, _ => .error "cannot compute logical failure probability"

/-- Models `ErrorCorrection::code_parameter_cmp` for `RepetitionCode`: compare
by physical qubit count, then by logical cycle time; fall back to `Equal`
when any of the four derived quantities is an error. -/
def RepetitionCode.code_parameter_cmp (c : RepetitionCode) (q : CatQubit)
    (p1 p2 : CodeParameter) : Ordering :=
  match c.physical_qubits p1, c.logical_cycle_time q p1,
      c.physical_qubits p2, c.logical_cycle_time q p2 with
  | .ok n1, .ok t1, .ok n2, .ok t2 => (compare n1 n2).then (compare t1 t2)
  | _, _, _, _ => .eq

/-- Iteration state of `CodeParameterRange` (`src/code.rs`): current distance,
current |α|² as `u64`, and the two maxima. -/
structure CodeParameterRange where
  distance : ℕ
  alpha_sq : ℕ
  max_distance : ℕ
  max_alpha_sq : ℕ
deriving DecidableEq

/-- Models `CodeParameterRange::new`: default lower bound `(1, 1.0)`, and the
two `f64 → u64` conversions whose `expect` (modelled as `none`) aborts when a
value is not representable. -/
def CodeParameterRange.new (lower_bound : Option CodeParameter) (max_distance : ℕ)
    (max_alpha_sq : ℚ) : Option CodeParameterRange :=
  let lb := lower_bound.getD (CodeParameter.new 1 1)
  match f64_to_u64 lb.alpha_sq, f64_to_u64 max_alpha_sq with
  | some a, some m =>
      some { distance := lb.distance, alpha_sq := a,
             max_distance := max_distance, max_alpha_sq := m }
  | _, _ => none

/-- Models `Iterator::next` for `CodeParameterRange`: stop past the maximum
distance; otherwise emit the current pair, then advance |α|² by 1, or step the
distance by 2 and reset |α|² to 1 when |α|² sits at its maximum.  (The
`u64 → f64` conversion of the emitted |α|² always succeeds.) -/
def CodeParameterRange.next (s : CodeParameterRange) :
    Option (CodeParameter × CodeParameterRange) :=
  if s.max_distance < s.distance then
    none
  else
    let result := CodeParameter.new s.distance (s.alpha_sq : ℚ)
    let s1 :=
      if s.alpha_sq = s.max_alpha_sq then
        { s with distance := s.distance + 2, alpha_sq := 1 }
      else
        { s with alpha_sq := s.alpha_sq + 1 }
    some (result, s1)

/-- Drains up to `fuel` elements of a `CodeParameterRange` into a list; the
source iterator is lazy, and every claim below only consumes finitely many
elements. -/
def CodeParameterRange.toList : ℕ → CodeParameterRange → List CodeParameter
  | 0, _ => []
  | fuel + 1, s =>
    match s.next with
    | none => []
    | some (p, s1) => p :: CodeParameterRange.toList fuel s1

/-- Models `ErrorCorrection::code_parameter_range` for `RepetitionCode`:
`CodeParameterRange::new(lower_bound, 49, 30.0)`. -/
def RepetitionCode.code_parameter_range (_c : RepetitionCode)
    (lower_bound : Option CodeParameter) : Option CodeParameterRange :=
  CodeParameterRange.new lower_bound 49 30

/-- First element produced by the default-bounded code parameter range seeded
at `lb` (composition of `code_parameter_range` and one `next` call). -/
def first_code_parameter (lb : Option CodeParameter) : Option CodeParameter :=
  (RepetitionCode.new.code_parameter_range lb).bind fun s => s.next.map Prod.fst

/-- Full element list of the default code parameter range (751 units of fuel
are enough to exhaust it, as proved below). -/
def default_code_parameter_list : List CodeParameter :=
  match RepetitionCode.new.code_parameter_range none with
  | some s => s.toList 751
  | none => []

/-- Toffoli magic state factory (`src/factories.rs`): internal code distance,
internal |α|², precomputed error and acceptance probabilities, number of
steps. -/
structure ToffoliFactory where
  code_distance : ℕ
  alpha_sq : ℚ
  error_probability : ℚ
  acceptance_probability : ℚ
  steps : ℕ
deriving DecidableEq

/-- Models `Factory::physical_qubits` for `ToffoliFactory`:
`(4 + 1) * (2 * code_distance - 1)` (4 logical qubits plus 1 horizontal
routing qubit). -/
def ToffoliFactory.physical_qubits (f : ToffoliFactory) : ℕ :=
  (4 + 1) * (2 * f.code_distance - 1)

/-- Models `Factory::duration` for `ToffoliFactory`:
`((89.2 * 100 / alpha_sq) * steps / acceptance_probability).round` converted
to `u64`.  On every entry of the fixed catalog the rounded value is a small
positive integer, so the final `u64::from_f64(..).expect(..)` of the source
always succeeds and is modelled by `Int.toNat` of the rounded value. -/
def ToffoliFactory.duration (f : ToffoliFactory) : ℕ :=
  (round (89.2 * 100 / f.alpha_sq * (f.steps : ℚ) / f.acceptance_probability)).toNat

/-- Models `Factory::num_output_states` for `ToffoliFactory`: always 1. -/
def ToffoliFactory.num_output_states (_f : ToffoliFactory) : ℕ :=
  1

/-- Models `ToffoliFactory::normalized_volume`: physical qubits times duration
(the `assert_eq!(num_output_states, 1)` guard trivially holds). -/
def ToffoliFactory.normalized_volume (f : ToffoliFactory) : ℕ :=
  f.physical_qubits * f.duration

/-- Factory builder (`src/factories.rs`): the catalog plus the cached lowest
error probability. -/
structure ToffoliBuilder where
  factories : List ToffoliFactory
  lowest_error_probability : ℚ

/-- Models `ToffoliBuilder::default`: the 15 precomputed factories of
arXiv:2302.06639 (Table III, p. 35), and the minimum of their error
probabilities (`min_by(f64::total_cmp)`, `unwrap_or_default`). -/
def ToffoliBuilder.default : ToffoliBuilder :=
  let factories : List ToffoliFactory :=
    [ { code_distance := 3, alpha_sq := 3.75, error_probability := 1.05e-3,
        steps := 23, acceptance_probability := 0.84 },
      { code_distance := 3, alpha_sq := 5.08, error_probability := 1.02e-4,
        steps := 29, acceptance_probability := 0.745 },
      { code_distance := 3, alpha_sq := 5.32, error_probability := 8.14e-5,
        steps := 35, acceptance_probability := 0.66 },
      { code_distance := 5, alpha_sq := 7.15, error_probability := 4.62e-6,
        steps := 46, acceptance_probability := 0.456 },
      { code_distance := 5, alpha_sq := 8.18, error_probability := 7.00e-7,
        steps := 53, acceptance_probability := 0.362 },
      { code_distance := 5, alpha_sq := 8.38, error_probability := 5.36e-7,
        steps := 60, acceptance_probability := 0.288 },
      { code_distance := 7, alpha_sq := 9.71, error_probability := 6.14e-8,
        steps := 73, acceptance_probability := 0.148 },
      { code_distance := 7, alpha_sq := 10.76, error_probability := 8.40e-9,
        steps := 81, acceptance_probability := 0.105 },
      { code_distance := 7, alpha_sq := 11.06, error_probability := 5.16e-9,
        steps := 89, acceptance_probability := 0.0727 },
      { code_distance := 9, alpha_sq := 11.64, error_probability := 2.28e-9,
        steps := 104, acceptance_probability := 0.0262 },
      { code_distance := 9, alpha_sq := 12.83, error_probability := 2.30e-10,
        steps := 113, acceptance_probability := 0.0154 },
      { code_distance := 9, alpha_sq := 13.44, error_probability := 7.36e-11,
        steps := 122, acceptance_probability := 0.00975 },
      { code_distance := 19, alpha_sq := 17.35, error_probability := 7.90e-12,
        steps := 9576, acceptance_probability := 1.0 },
      { code_distance := 21, alpha_sq := 18.94, error_probability := 5.40e-13,
        steps := 14112, acceptance_probability := 1.0 },
      { code_distance := 23, alpha_sq := 20.53, error_probability := 3.74e-14,
        steps := 21344, acceptance_probability := 1.0 } ]
  { factories := factories,
    lowest_error_probability :=
      ((factories.map ToffoliFactory.error_probability).min?).getD 0 }

/-- Models `FactoryBuilder::find_factories` for `ToffoliBuilder`: the
`assert!(output_error_rate > lowest_error_probability)` precondition (its
violation, a Rust panic with message "Requested error probability is too
low", is modelled as `none`; the source itself never returns Rust `None`),
then filter the catalog by `error_probability ≤ output_error_rate` and sort
ascending by normalized volume (`sort_unstable` over the `Ord` instance). -/
def ToffoliBuilder.find_factories (b : ToffoliBuilder) (output_error_rate : ℚ) :
    Option (List ToffoliFactory) :=
  if b.lowest_error_probability < output_error_rate then
    some ((b.factories.filter fun f => decide (f.error_probability ≤ output_error_rate)).mergeSort
      fun f g => decide (f.normalized_volume ≤ g.normalized_volume))
  else
    none

/-- Models `FactoryBuilder::num_magic_state_types` for `ToffoliBuilder`. -/
def ToffoliBuilder.num_magic_state_types (_b : ToffoliBuilder) : ℕ :=
  1

/-- Logical resource counter (`src/counter.rs`): tallies of qubits, CX and
CCX gates, plus the free list of released qubit indices.  The source keeps
the free list in a `Vec` pushed and popped at its end; the embedding stores
that stack with its top at the head of the list. -/
structure LogicalCounts where
  qubit_count : ℕ
  cx_count : ℕ
  ccx_count : ℕ
  free_list : List ℕ
deriving DecidableEq

/-- Models `LogicalCounts::new`. -/
def LogicalCounts.new (qubit_count cx_count ccx_count : ℕ) : LogicalCounts :=
  { qubit_count := qubit_count, cx_count := cx_count, ccx_count := ccx_count,
    free_list := [] }

/-- Models `LogicalCounts::default` (derived): all tallies zero, empty free
list. -/
def LogicalCounts.default : LogicalCounts :=
  LogicalCounts.new 0 0 0

/-- Error budget (external type `resource_estimator::estimates::ErrorBudget`):
three non-negative allocations; the counter ignores it. -/
structure ErrorBudget where
  logical : ℚ
  magic_states : ℚ
  rotations : ℚ

/-- Models `Overhead::logical_qubits` for `LogicalCounts`:
`qubit_count + (qubit_count.div_ceil(2) + 1)`, the raw qubits plus the
horizontal routing qubits (`div_ceil 2` is `(n + 1) / 2` on `ℕ`). -/
def LogicalCounts.logical_qubits (c : LogicalCounts) : ℕ :=
  let horizontal_routing_qubits := (c.qubit_count + 1) / 2 + 1
  c.qubit_count + horizontal_routing_qubits

/-- Models `Overhead::logical_depth` for `LogicalCounts`:
`ceil(cx * 2.2 + ccx * 10.1)` (the final `to_u64().expect(..)` always
succeeds on the values the theorems below use and is modelled by
`Int.toNat`). -/
def LogicalCounts.logical_depth (c : LogicalCounts) (_b : ErrorBudget) : ℕ :=
  (⌈(c.cx_count : ℚ) * 2.2 + (c.ccx_count : ℚ) * 10.1⌉).toNat

/-- Models `Overhead::num_magic_states` for `LogicalCounts`: the CCX tally. -/
def LogicalCounts.num_magic_states (c : LogicalCounts) (_b : ErrorBudget)
    (_index : ℕ) : ℕ :=
  c.ccx_count

/-- Models `Backend::ccx` for `LogicalCounts`. -/
def LogicalCounts.ccx (c : LogicalCounts) (_ctl0 _ctl1 _q : ℕ) : LogicalCounts :=
  { c with ccx_count := c.ccx_count + 1 }

/-- Models `Backend::cx` for `LogicalCounts`. -/
def LogicalCounts.cx (c : LogicalCounts) (_ctl _q : ℕ) : LogicalCounts :=
  { c with cx_count := c.cx_count + 1 }

/-- Models `Backend::cy` for `LogicalCounts`. -/
def LogicalCounts.cy (c : LogicalCounts) (_ctl _q : ℕ) : LogicalCounts :=
  { c with cx_count := c.cx_count + 1 }

/-- Models `Backend::cz` for `LogicalCounts`. -/
def LogicalCounts.cz (c : LogicalCounts) (_ctl _q : ℕ) : LogicalCounts :=
  { c with cx_count := c.cx_count + 1 }

/-- Models `Backend::swap` for `LogicalCounts`: three CX tallies. -/
def LogicalCounts.swap (c : LogicalCounts) (_q0 _q1 : ℕ) : LogicalCounts :=
  { c with cx_count := c.cx_count + 3 }

/-- Models `Backend::qubit_allocate` for `LogicalCounts`: pop the most
recently pushed free index if any, otherwise return `qubit_count` and grow it
by one (the `usize` conversion of the new index always succeeds in the
modelled range). -/
def LogicalCounts.qubit_allocate (c : LogicalCounts) : ℕ × LogicalCounts :=
  match c.free_list with
  | q :: rest => (q, { c with free_list := rest })
  | [] => (c.qubit_count, { c with qubit_count := c.qubit_count + 1 })

/-- Models `Backend::qubit_release` for `LogicalCounts`: push the index onto
the free list. -/
def LogicalCounts.qubit_release (c : LogicalCounts) (q : ℕ) : LogicalCounts :=
  { c with free_list := q :: c.free_list }

/-- Models `Backend::m` / `Backend::mresetz` for `LogicalCounts`: no state
change, fixed `false` outcome. -/
def LogicalCounts.m (c : LogicalCounts) (_q : ℕ) : Bool × LogicalCounts :=
  (false, c)

/-- Models `Backend::capture_quantum_state` for `LogicalCounts`: empty
placeholder, no state change. -/
def LogicalCounts.capture_quantum_state (c : LogicalCounts) :
    (List (ℕ × ℚ)) × ℕ × LogicalCounts :=
  ([], 0, c)

/-- Models `Backend::qubit_is_zero` for `LogicalCounts`: always `true`, no
state change. -/
def LogicalCounts.qubit_is_zero (c : LogicalCounts) (_q : ℕ) :
    Bool × LogicalCounts :=
  (true, c)

/-- One operation of the `Backend` capability set implemented by
`LogicalCounts` (`h`, `s`, `sadj`, `x`, `y`, `z` and `reset` have empty
bodies in the source). -/
inductive BackendOp where
  | ccx (ctl0 ctl1 q : ℕ)
  | cx (ctl q : ℕ)
  | cy (ctl q : ℕ)
  | cz (ctl q : ℕ)
  | h (q : ℕ)
  | m (q : ℕ)
  | mresetz (q : ℕ)
  | reset (q : ℕ)
  | sadj (q : ℕ)
  | s (q : ℕ)
  | swap (q0 q1 : ℕ)
  | x (q : ℕ)
  | y (q : ℕ)
  | z (q : ℕ)
  | qubit_allocate
  | qubit_release (q : ℕ)
  | capture_quantum_state
  | qubit_is_zero (q : ℕ)
deriving DecidableEq

/-- State transition of one `Backend` operation on the counter. -/
def LogicalCounts.apply (op : BackendOp) (c : LogicalCounts) : LogicalCounts :=
  match op with
  | .ccx c0 c1 q => c.ccx c0 c1 q
  | .cx ctl q => c.cx ctl q
  | .cy ctl q => c.cy ctl q
  | .cz ctl q => c.cz ctl q
  | .h _ => c
  | .m q => (c.m q).2
  | .mresetz q => (c.m q).2
  | .reset _ => c
  | .sadj _ => c
  | .s _ => c
  | .swap q0 q1 => c.swap q0 q1
  | .x _ => c
  | .y _ => c
  | .z _ => c
  | .qubit_allocate => c.qubit_allocate.2
  | .qubit_release q => c.qubit_release q
  | .capture_quantum_state => c.capture_quantum_state.2.2
  | .qubit_is_zero q => (c.qubit_is_zero q).2

/-- Factory part of an optimization result (external type
`resource_estimator::estimates::FactoryPart`): the chosen factory and the
number of copies. -/
structure FactoryPart where
  factory : ToffoliFactory
  copies : ℕ

/-- Generic optimization result (external type
`resource_estimator::estimates::PhysicalResourceEstimationResult`), modelled
abstractly through the accessors `src/estimates.rs` reads: base physical
qubit count, runtime, number of logical cycles, the frozen layout overhead,
the chosen logical patch (its code parameter and logical error rate), the
number of magic states, the physical qubits used by factories, and the single
Toffoli factory part (`factory_parts()[0]`), absent when no magic states are
needed. -/
structure PhysicalResourceEstimationResult where
  physical_qubits : ℕ
  runtime : ℕ
  num_cycles : ℕ
  layout_overhead : LogicalCounts
  code_parameter : CodeParameter
  logical_error_rate : ℚ
  num_magic_states : ℕ
  physical_qubits_for_factories : ℕ
  factory_parts0 : Option FactoryPart

/-- Physical resources estimate for the Alice & Bob architecture
(`src/estimates.rs`), a newtype over the generic optimization result. -/
structure AliceAndBobEstimates where
  toResult : PhysicalResourceEstimationResult

/-- Models `AliceAndBobEstimates::toffoli_factory_part`:
`factory_parts()[0].as_ref()`. -/
def AliceAndBobEstimates.toffoli_factory_part (e : AliceAndBobEstimates) :
    Option FactoryPart :=
  e.toResult.factory_parts0

/-- Models `AliceAndBobEstimates::physical_qubits`: the base physical qubit
count plus the vertical routing qubits
`2 * (3 * (logical_qubits + copies * 5) - 1)`, with `copies` taken as 0 when
the factory part is absent (`map_or(0, FactoryPart::copies)`). -/
def AliceAndBobEstimates.physical_qubits (e : AliceAndBobEstimates) : ℕ :=
  let additional_routing_qubits :=
    2 * (3 * (e.toResult.layout_overhead.logical_qubits
      + (e.toffoli_factory_part.elim 0 FactoryPart.copies) * 5) - 1)
  e.toResult.physical_qubits + additional_routing_qubits

/-- Models `AliceAndBobEstimates::factory_fraction`:
`physical_qubits_for_factories / physical_qubits * 100` (the two `u64 → f64`
conversions always succeed). -/
def AliceAndBobEstimates.factory_fraction (e : AliceAndBobEstimates) : ℚ :=
  ((e.toResult.physical_qubits_for_factories : ℚ) / (e.physical_qubits : ℚ)) * 100

/-- Models `AliceAndBobEstimates::total_error`: logical error term
`num_cycles * logical_qubits * logical_error_rate` plus, when the factory
part is present, the magic state term
`num_magic_states * factory.error_probability` (`map_or(0.0, ..)`). -/
def AliceAndBobEstimates.total_error (e : AliceAndBobEstimates) : ℚ :=
  let logical := ((e.toResult.num_cycles * e.toResult.layout_overhead.logical_qubits : ℕ) : ℚ)
    * e.toResult.logical_error_rate
  let magic_states := e.toffoli_factory_part.elim 0 fun p =>
    (e.toResult.num_magic_states : ℚ) * p.factory.error_probability
  logical + magic_states

/-- One line of the textual report printed by the `Display` implementation of
`AliceAndBobEstimates`, keeping the numeric payload of each field (the
separator rules and the fixed-width formatting carry no data). -/
inductive ReportLine where
  | separator
  | physicalQubits (n : ℕ)
  | runtimeHours (hours : ℚ)
  | totalError (x : ℚ)
  | codeDistance (p : CodeParameter)
  | numFactories (n : ℕ)
  | factoriesDistance (f : ToffoliFactory)
  | factoryFraction (x : ℚ)

/-- Models the `Display` implementation of `AliceAndBobEstimates`: the fields
in their printed order.  The factories-distance field calls
`toffoli_factory_part().expect("No factory part")`, a panic (modelled as
`none`) whenever the factory part is absent; every other field is total
(`#factories` uses `map_or(0, FactoryPart::copies)`). -/
def AliceAndBobEstimates.display (e : AliceAndBobEstimates) :
    Option (List ReportLine) :=
  e.toffoli_factory_part.map fun part =>
    [ ReportLine.separator,
      ReportLine.physicalQubits e.physical_qubits,
      ReportLine.runtimeHours ((e.toResult.runtime : ℚ) / 1e9 / 3600),
      ReportLine.totalError e.total_error,
      ReportLine.separator,
      ReportLine.codeDistance e.toResult.code_parameter,
      ReportLine.numFactories (e.toffoli_factory_part.elim 0 FactoryPart.copies),
      ReportLine.factoriesDistance part.factory,
      ReportLine.factoryFraction e.factory_fraction,
      ReportLine.separator ]

/-- Sample optimization result with no factory part (no magic states needed),
used to witness the report-rendering claim. -/
def sample_result_without_factory : PhysicalResourceEstimationResult :=
  { physical_qubits := 100, runtime := 3600000000000, num_cycles := 10,
    layout_overhead := LogicalCounts.new 5 10 2,
    code_parameter := CodeParameter.new 13 19,
    logical_error_rate := 1e-5, num_magic_states := 0,
    physical_qubits_for_factories := 0, factory_parts0 := none }

/-- Sample estimate wrapping `sample_result_without_factory`. -/
def sample_estimates_without_factory : AliceAndBobEstimates :=
  { toResult := sample_result_without_factory }

/-- Relates `ℕ` ceiling division by two (the source's `div_ceil(2)`) to the
mathematical ceiling of the rational quotient. -/
theorem nat_ceil_half (q : ℕ) : ⌈(q : ℚ) / 2⌉₊ = (q + 1) / 2 := by
  rcases Nat.even_or_odd q with ⟨k, hk⟩ | ⟨k, hk⟩ <;> subst hk
  · have h : ((k + k : ℕ) : ℚ) / 2 = (k : ℚ) := by push_cast; ring
    rw [h, Nat.ceil_natCast]
    omega
  · have h : (2 * k + 1 + 1) / 2 = k + 1 := by omega
    rw [h, Nat.ceil_eq_iff (by omega : k + 1 ≠ 0)]
    constructor
    · push_cast
      linarith
    · push_cast
      linarith

/-- C5: for every raw tally, the overhead contract reports
`q + ⌈q/2⌉ + 1` logical qubits and a magic-state demand equal to the
three-qubit gate count; the fixed `(5, 10, 2)` tally yields 9 logical qubits
and a magic-state demand of 2. -/
theorem logical_counts_overhead_contract (q cx ccx : ℕ) (b : ErrorBudget) :
    (LogicalCounts.new q cx ccx).logical_qubits = q + ⌈(q : ℚ) / 2⌉₊ + 1
    ∧ (LogicalCounts.new q cx ccx).num_magic_states b 0 = ccx
    ∧ (LogicalCounts.new 5 10 2).logical_qubits = 9
    ∧ (LogicalCounts.new 5 10 2).num_magic_states b 0 = 2 := by
  refine ⟨?_, rfl, rfl, rfl⟩
  rw [nat_ceil_half]
  simp only [LogicalCounts.logical_qubits, LogicalCounts.new]
  omega

/-- C8: `qubit_count` never decreases under any operation of the backend
capability set; a swap adds exactly 3 to the two-qubit tally; and allocating
three qubits, releasing the second one (index 1) and allocating again returns
the released index. -/
theorem logical_counts_allocation_invariants :
    (∀ (op : BackendOp) (c : LogicalCounts),
        c.qubit_count ≤ (LogicalCounts.apply op c).qubit_count)
    ∧ (∀ (c : LogicalCounts) (q0 q1 : ℕ),
        (c.swap q0 q1).cx_count = c.cx_count + 3)
    ∧ ((((LogicalCounts.default.qubit_allocate.2.qubit_allocate.2.qubit_allocate.2).qubit_release
            LogicalCounts.default.qubit_allocate.2.qubit_allocate.1).qubit_allocate.1
          = LogicalCounts.default.qubit_allocate.2.qubit_allocate.1)
        ∧ LogicalCounts.default.qubit_allocate.2.qubit_allocate.1 = 1) := by
  refine ⟨?_, fun c q0 q1 => rfl, by decide⟩
  intro op c
  obtain ⟨qc, cxc, ccxc, fl⟩ := c
  cases op <;>
    simp [LogicalCounts.apply, LogicalCounts.ccx, LogicalCounts.cx, LogicalCounts.cy,
      LogicalCounts.cz, LogicalCounts.swap, LogicalCounts.m, LogicalCounts.qubit_release,
      LogicalCounts.capture_quantum_state, LogicalCounts.qubit_is_zero,
      LogicalCounts.qubit_allocate]
  cases fl <;> simp [LogicalCounts.qubit_allocate]

/-- C9: in the parameter space's valid odd range the physical qubit count is
`2 * distance - 1`, and it is strictly increasing in the distance. -/
theorem physical_qubits_formula (d1 d2 : ℕ) (a1 a2 : ℚ)
    (h1 : d1 % 2 = 1) (h2 : d1 ≤ 49) (h3 : d2 % 2 = 1) (h4 : d2 ≤ 49) :
    RepetitionCode.new.physical_qubits (CodeParameter.new d1 a1) = .ok (2 * d1 - 1)
    ∧ (d1 < d2 → 2 * d1 - 1 < 2 * d2 - 1) :=
  ⟨rfl, by omega⟩

/-- Witness for `physical_qubits_formula` at distances 1 and 3. -/
theorem physical_qubits_formula_witness :
    1 % 2 = 1 ∧ 1 ≤ 49 ∧ 3 % 2 = 1 ∧ 3 ≤ 49 ∧
    (RepetitionCode.new.physical_qubits (CodeParameter.new 1 1) = .ok (2 * 1 - 1)
      ∧ (1 < 3 → 2 * 1 - 1 < 2 * 3 - 1)) :=
  ⟨rfl, by decide, rfl, by decide,
    physical_qubits_formula 1 3 1 1 rfl (by decide) rfl (by decide)⟩

/-- C7: the code parameter comparison is the lexicographic ascending order on
(physical qubit count, logical cycle time); since both derived quantities are
always computable, the tolerant fall-back to `Equal` is never taken. -/
theorem code_parameter_cmp_lex (q : CatQubit) (p1 p2 : CodeParameter)
    (h1 : 1 ≤ p1.distance) (h2 : 1 ≤ p2.distance) :
    RepetitionCode.new.code_parameter_cmp q p1 p2 =
      (compare (2 * p1.distance - 1) (2 * p2.distance - 1)).then
        (compare (500 * p1.distance) (500 * p2.distance)) :=
  rfl

/-- Witness for `code_parameter_cmp_lex` at distances 3 and 5. -/
theorem code_parameter_cmp_lex_witness :
    1 ≤ (CodeParameter.new 3 1).distance ∧ 1 ≤ (CodeParameter.new 5 1).distance ∧
    RepetitionCode.new.code_parameter_cmp CatQubit.new
        (CodeParameter.new 3 1) (CodeParameter.new 5 1) =
      (compare (2 * (CodeParameter.new 3 1).distance - 1)
          (2 * (CodeParameter.new 5 1).distance - 1)).then
        (compare (500 * (CodeParameter.new 3 1).distance)
          (500 * (CodeParameter.new 5 1).distance)) :=
  ⟨by decide, by decide,
    code_parameter_cmp_lex CatQubit.new (CodeParameter.new 3 1) (CodeParameter.new 5 1)
      (by decide) (by decide)⟩

/-- C6: the composed total physical qubit count is
`base + 2 * (3 * (logicalQubits + factoryCopies * 5) - 1)`, with
`factoryCopies` taken as 0 when the factory part is absent (stated over `ℤ`
so that the subtraction is the mathematical one; the layout overhead always
provides at least one logical qubit, so the `u64` subtraction of the source
cannot underflow). -/
theorem total_physical_qubits_composition (e : AliceAndBobEstimates) :
    (e.physical_qubits : ℤ) =
      (e.toResult.physical_qubits : ℤ)
        + 2 * (3 * ((e.toResult.layout_overhead.logical_qubits : ℤ)
            + (e.toffoli_factory_part.elim 0 fun p => (p.copies : ℤ)) * 5) - 1) := by
  have h1 : 1 ≤ e.toResult.layout_overhead.logical_qubits := by
    simp only [LogicalCounts.logical_qubits]
    omega
  rcases hp : e.toffoli_factory_part with _ | part <;>
    simp only [AliceAndBobEstimates.physical_qubits, hp, Option.elim] <;>
    omega

/-- C10: when the factory part is absent, rendering the report fails (the
factories-distance field panics with "No factory part"), while the physical
qubit count, the total error and the factory-copy-count field all succeed
with the absent part treated as zero copies. -/
theorem display_requires_factory_part (e : AliceAndBobEstimates)
    (h : e.toffoli_factory_part = none) :
    e.display = none
    ∧ e.physical_qubits
        = e.toResult.physical_qubits
          + 2 * (3 * e.toResult.layout_overhead.logical_qubits - 1)
    ∧ e.total_error
        = ((e.toResult.num_cycles * e.toResult.layout_overhead.logical_qubits : ℕ) : ℚ)
          * e.toResult.logical_error_rate
    ∧ e.toffoli_factory_part.elim 0 FactoryPart.copies = 0 := by
  refine ⟨?_, ?_, ?_, ?_⟩ <;>
    simp [AliceAndBobEstimates.display, AliceAndBobEstimates.physical_qubits,
      AliceAndBobEstimates.total_error, h]

/-- C1: on every odd distance in the valid range the logical error rate is
`distance * (phaseFlipRate + bitFlipRate)` with
`phaseFlipRate = 5.6e-2 * ((meanPhotons^0.86 * lossRatio) / 0.013)^((distance+1)/2)`
and `bitFlipRate = 2*(distance-1) * 0.5 * exp(-2*meanPhotons)`; and the
computation fails with the explicit error message exactly when the
distance-to-`i32` conversion is not representable. -/
theorem logical_error_rate_formula (q : CatQubit) (d : ℕ) (a : ℚ)
    (h1 : d % 2 = 1) (h2 : d ≤ 49) :
    RepetitionCode.new.logical_error_rate q (CodeParameter.new d a) =
      .ok ((d : ℝ) *
        (5.6e-2 * (((a : ℝ) ^ (0.86 : ℝ) * q.k1_k2) / 0.013) ^ ((d + 1) / 2)
          + 2 * ((d : ℝ) - 1) * (0.5 * Real.exp (-2 * (a : ℝ)))))
    ∧ ∀ p : CodeParameter,
        (RepetitionCode.new.logical_error_rate q p
            = .error "cannot compute logical failure probability")
          ↔ 2147483647 < p.distance := by
  constructor
  · have hd : d ≤ 2147483647 := by omega
    have h3 : 1 ≤ d := by omega
    have hcast : ((2 * (d - 1) : ℕ) : ℝ) = 2 * ((d : ℝ) - 1) := by
      push_cast [h3]
      ring
    simp only [RepetitionCode.logical_error_rate, RepetitionCode.logical_phaseflip_probability,
      logical_bitflip_probability, f64_from_u64, i32_from_u64, if_pos hd, Option.map_some',
      RepetitionCode.new, CodeParameter.new]
    rw [hcast]
  · intro p
    by_cases hp : p.distance ≤ 2147483647
    · obtain ⟨x, hx⟩ : ∃ x, RepetitionCode.new.logical_phaseflip_probability q p = some x := by
        simp only [RepetitionCode.logical_phaseflip_probability, i32_from_u64, if_pos hp,
          Option.map_some']
        exact ⟨_, rfl⟩
      simp only [RepetitionCode.logical_error_rate, f64_from_u64, hx,
        logical_bitflip_probability, Option.map_some']
      simp only [reduceCtorEq, false_iff, not_lt]
      exact hp
    · have hv : RepetitionCode.new.logical_error_rate q p
          = .error "cannot compute logical failure probability" := by
        simp only [RepetitionCode.logical_error_rate,
          RepetitionCode.logical_phaseflip_probability, logical_bitflip_probability,
          f64_from_u64, i32_from_u64, if_neg hp, Option.map_none']
      rw [hv]
      simp only [true_iff]
      omega

/-- Witness for `logical_error_rate_formula` at distance 3, |α|² = 4. -/
theorem logical_error_rate_formula_witness :
    3 % 2 = 1 ∧ 3 ≤ 49 ∧
    (RepetitionCode.new.logical_error_rate CatQubit.new (CodeParameter.new 3 4) =
        .ok (((3 : ℕ) : ℝ) *
          (5.6e-2 * ((((4 : ℚ) : ℝ) ^ (0.86 : ℝ) * CatQubit.new.k1_k2) / 0.013)
              ^ (((3 : ℕ) + 1) / 2)
            + 2 * (((3 : ℕ) : ℝ) - 1) * (0.5 * Real.exp (-2 * ((4 : ℚ) : ℝ)))))
      ∧ ∀ p : CodeParameter,
          (RepetitionCode.new.logical_error_rate CatQubit.new p
              = .error "cannot compute logical failure probability")
            ↔ 2147483647 < p.distance) :=
  ⟨rfl, by decide, logical_error_rate_formula CatQubit.new 3 4 rfl (by decide)⟩

/-- Computes the two `f64 → u64` conversions used by the default code
parameter range: an integer |α|² below `2^64` converts to itself. -/
theorem f64_to_u64_natCast (a : ℕ) (ha : a < 2 ^ 64) : f64_to_u64 (a : ℚ) = some a := by
  unfold f64_to_u64
  rw [if_pos]
  · rw [Int.floor_natCast]
    simp
  · constructor
    · have h0 : (0 : ℚ) ≤ (a : ℚ) := Nat.cast_nonneg a
      linarith
    · exact_mod_cast ha

/-- C4 counterexample: a lower bound with fractional meanPhotons is truncated
(the first element is not the bound), and a lower bound with distance above
the maximum yields no first element at all. -/
theorem code_parameter_range_first_counterexample :
    first_code_parameter (some (CodeParameter.new 1 (5 / 2)))
        ≠ some (CodeParameter.new 1 (5 / 2))
    ∧ first_code_parameter (some (CodeParameter.new 51 1))
        ≠ some (CodeParameter.new 51 1) := by
  have h30 : f64_to_u64 (30 : ℚ) = some 30 := by
    have := f64_to_u64_natCast 30 (by norm_num)
    simpa using this
  constructor
  · have h52 : f64_to_u64 (5 / 2 : ℚ) = some 2 := by
      unfold f64_to_u64
      rw [if_pos (by norm_num)]
      have hfl : (⌊(5 / 2 : ℚ)⌋ : ℤ) = 2 := by
        rw [Int.floor_eq_iff] <;> norm_num
      rw [hfl]
      simp
    simp only [first_code_parameter, RepetitionCode.code_parameter_range,
      CodeParameterRange.new, Option.getD_some, CodeParameter.new, h52, h30,
      Option.some_bind, CodeParameterRange.next]
    norm_num [CodeParameter.new]
  · have h1 : f64_to_u64 (1 : ℚ) = some 1 := by
      have := f64_to_u64_natCast 1 (by norm_num)
      simpa using this
    simp only [first_code_parameter, RepetitionCode.code_parameter_range,
      CodeParameterRange.new, Option.getD_some, CodeParameter.new, h1, h30,
      Option.some_bind, CodeParameterRange.next]
    simp

set_option maxRecDepth 100000 in
set_option maxHeartbeats 3200000 in
/-- C4 (amended): seeded at a lower bound whose meanPhotons is an integer
representable in `u64` and whose distance does not exceed the maximum
distance 49, the range yields that bound as its first element; the full
default range is exactly the outer enumeration of the odd distances
1, 3, ..., 49 with the inner enumeration of integer meanPhotons 1..30, and it
has exactly 750 elements. -/
theorem code_parameter_range_spec (d a : ℕ) (hd : d ≤ 49) (ha : a < 2 ^ 64) :
    first_code_parameter (some (CodeParameter.new d (a : ℚ)))
        = some (CodeParameter.new d (a : ℚ))
    ∧ default_code_parameter_list
        = ((List.range' 1 25 2).flatMap
            fun dd => (List.range' 1 30 1).map fun aa => CodeParameter.new dd (aa : ℚ))
    ∧ default_code_parameter_list.length = 750 := by
  refine ⟨?_, by decide, by decide⟩
  have h30 : f64_to_u64 (30 : ℚ) = some 30 := by
    have h := f64_to_u64_natCast 30 (by norm_num)
    simpa using h
  have hconv : f64_to_u64 ((a : ℕ) : ℚ) = some a := f64_to_u64_natCast a ha
  simp only [first_code_parameter, RepetitionCode.code_parameter_range,
    CodeParameterRange.new, Option.getD_some, CodeParameter.new, hconv, h30,
    Option.some_bind, CodeParameterRange.next, if_neg (by omega : ¬49 < d)]
  simp [CodeParameter.new]

set_option maxRecDepth 100000 in
set_option maxHeartbeats 3200000 in
/-- Witness for `code_parameter_range_spec` at lower bound (7, 2). -/
theorem code_parameter_range_spec_witness :
    7 ≤ 49 ∧ 2 < 2 ^ 64 ∧
    (first_code_parameter (some (CodeParameter.new 7 ((2 : ℕ) : ℚ)))
        = some (CodeParameter.new 7 ((2 : ℕ) : ℚ))
      ∧ default_code_parameter_list
          = ((List.range' 1 25 2).flatMap
              fun dd => (List.range' 1 30 1).map fun aa => CodeParameter.new dd (aa : ℚ))
      ∧ default_code_parameter_list.length = 750) :=
  ⟨by decide, by decide, code_parameter_range_spec 7 2 (by decide) (by decide)⟩

/-- Lower-bounds a left fold of `min` by its initial value. -/
theorem list_foldl_min_le (l : List ℚ) (a : ℚ) : l.foldl min a ≤ a := by
  induction l generalizing a with
  | nil => exact le_refl a
  | cons x xs ih => exact le_trans (ih (min a x)) (min_le_left a x)

/-- Evaluates the cached catalog minimum: the distance-23 factory achieves the
lowest error probability, 3.74e-14. -/
theorem lowest_error_probability_eq :
    ToffoliBuilder.default.lowest_error_probability = 3.74e-14 := by
  show ((ToffoliBuilder.default.factories.map ToffoliFactory.error_probability).min?).getD 0
      = 3.74e-14
  norm_num [ToffoliBuilder.default, List.min?, min_def]

/-- C2 counterexample: the catalog minimum is 3.74e-14, and calling
`find_factories` with exactly that target trips the strict precondition
`assert!` (a fatal panic, modelled as `none`) instead of returning a
non-empty sequence. -/
theorem find_factories_at_minimum_counterexample :
    ToffoliBuilder.default.lowest_error_probability = 3.74e-14
    ∧ ToffoliBuilder.default.find_factories 3.74e-14 = none := by
  refine ⟨lowest_error_probability_eq, ?_⟩
  unfold ToffoliBuilder.find_factories
  rw [if_neg]
  rw [lowest_error_probability_eq]
  exact lt_irrefl _

/-- C2 (amended): every target less than or equal to the catalog minimum
(equality included) is a fatal precondition failure, and every target
strictly above the minimum yields a non-empty sequence containing a factory
that achieves the catalog's minimum error probability. -/
theorem find_factories_extremes :
    (∀ t : ℚ, t ≤ ToffoliBuilder.default.lowest_error_probability →
        ToffoliBuilder.default.find_factories t = none)
    ∧ (∀ t : ℚ, ToffoliBuilder.default.lowest_error_probability < t →
        ∃ l, ToffoliBuilder.default.find_factories t = some l ∧ l ≠ [] ∧
          ∃ f ∈ l, f.error_probability = ToffoliBuilder.default.lowest_error_probability) := by
  constructor
  · intro t ht
    unfold ToffoliBuilder.find_factories
    rw [if_neg (not_lt.mpr ht)]
  · intro t ht
    have hmin : (ToffoliBuilder.default.factories.map ToffoliFactory.error_probability).min?
        = some ToffoliBuilder.default.lowest_error_probability := rfl
    have hmem := List.min?_mem (fun a b => min_choice a b) hmin
    obtain ⟨f, hf, hfe⟩ := List.mem_map.mp hmem
    have hffilter : f ∈ ToffoliBuilder.default.factories.filter
        fun g => decide (g.error_probability ≤ t) :=
      List.mem_filter.mpr ⟨hf, by rw [hfe]; exact decide_eq_true (le_of_lt ht)⟩
    have hfsorted : f ∈ (ToffoliBuilder.default.factories.filter
        fun g => decide (g.error_probability ≤ t)).mergeSort
          (fun f g => decide (f.normalized_volume ≤ g.normalized_volume)) :=
      List.mem_mergeSort.mpr hffilter
    refine ⟨_, ?_, List.ne_nil_of_mem hfsorted, f, hfsorted, hfe⟩
    unfold ToffoliBuilder.find_factories
    rw [if_pos ht]

/-- Witness for `find_factories_extremes` at the catalog minimum itself and
at target 1. -/
theorem find_factories_extremes_witness :
    (ToffoliBuilder.default.lowest_error_probability
        ≤ ToffoliBuilder.default.lowest_error_probability
      ∧ ToffoliBuilder.default.find_factories
          ToffoliBuilder.default.lowest_error_probability = none)
    ∧ (ToffoliBuilder.default.lowest_error_probability < 1
      ∧ ∃ l, ToffoliBuilder.default.find_factories 1 = some l ∧ l ≠ [] ∧
          ∃ f ∈ l, f.error_probability = ToffoliBuilder.default.lowest_error_probability) := by
  have hlt : ToffoliBuilder.default.lowest_error_probability < 1 := by
    rw [lowest_error_probability_eq]
    norm_num
  exact ⟨⟨le_refl _, find_factories_extremes.1 _ (le_refl _)⟩,
    hlt, find_factories_extremes.2 1 hlt⟩

/-- C3: for every target strictly above the catalog minimum, `find_factories`
returns (without failing) exactly the catalog entries whose error probability
is at most the target, sorted ascending by normalized volume. -/
theorem find_factories_filter_sorted (t : ℚ)
    (ht : ToffoliBuilder.default.lowest_error_probability < t) :
    ∃ l, ToffoliBuilder.default.find_factories t = some l
      ∧ l.Perm (ToffoliBuilder.default.factories.filter
          fun f => decide (f.error_probability ≤ t))
      ∧ l.Sorted fun f g => f.normalized_volume ≤ g.normalized_volume := by
  refine ⟨(ToffoliBuilder.default.factories.filter
      fun f => decide (f.error_probability ≤ t)).mergeSort
        (fun f g => decide (f.normalized_volume ≤ g.normalized_volume)), ?_, ?_, ?_⟩
  · unfold ToffoliBuilder.find_factories
    rw [if_pos ht]
  · exact List.mergeSort_perm _ _
  · refine List.Pairwise.imp (fun h => of_decide_eq_true h)
      (List.sorted_mergeSort (fun a b c hab hbc => ?_) (fun a b => ?_) _)
    · exact decide_eq_true (le_trans (of_decide_eq_true hab) (of_decide_eq_true hbc))
    · rcases Nat.le_total a.normalized_volume b.normalized_volume with h | h <;> simp [h]

/-- Witness for `find_factories_filter_sorted` at target 1. -/
theorem find_factories_filter_sorted_witness :
    ToffoliBuilder.default.lowest_error_probability < 1
    ∧ ∃ l, ToffoliBuilder.default.find_factories 1 = some l
        ∧ l.Perm (ToffoliBuilder.default.factories.filter
            fun f => decide (f.error_probability ≤ 1))
        ∧ l.Sorted fun f g => f.normalized_volume ≤ g.normalized_volume := by
  have hlt : ToffoliBuilder.default.lowest_error_probability < 1 := by
    rw [lowest_error_probability_eq]
    norm_num
  exact ⟨hlt, find_factories_filter_sorted 1 hlt⟩

/-- Witness for `display_requires_factory_part` on the sample estimate with
no factory part. -/
theorem display_requires_factory_part_witness :
    sample_estimates_without_factory.toffoli_factory_part = none
    ∧ (sample_estimates_without_factory.display = none
      ∧ sample_estimates_without_factory.physical_qubits
          = sample_estimates_without_factory.toResult.physical_qubits
            + 2 * (3 * sample_estimates_without_factory.toResult.layout_overhead.logical_qubits
              - 1)
      ∧ sample_estimates_without_factory.total_error
          = ((sample_estimates_without_factory.toResult.num_cycles
              * sample_estimates_without_factory.toResult.layout_overhead.logical_qubits : ℕ) : ℚ)
            * sample_estimates_without_factory.toResult.logical_error_rate
      ∧ sample_estimates_without_factory.toffoli_factory_part.elim 0 FactoryPart.copies = 0) :=
  ⟨rfl, display_requires_factory_part sample_estimates_without_factory rfl⟩
